import Mathlib

set_option maxRecDepth 20000
set_option maxHeartbeats 1000000

/-!
Shallow embedding of `generate_newsletter.py`: a linear pipeline that
fetches RSS feeds, normalizes summaries, classifies articles into nine
fixed subjects by ordered keyword matching, buckets and truncates them,
and renders a static HTML newsletter.  Python strings are modelled as
`List Char`; the external feed-parsing collaborator is a parameter.
-/

/-- Convert a Lean string literal to the `List Char` representation used
throughout the embedding. -/
def toCL (s : String) : List Char := s.data

/-- Whitespace predicate used by Python's `str.strip` and `str.split()`.
Modelled for the ASCII whitespace characters (Python additionally treats
a few rare Unicode characters as whitespace; no keyword or claim input
involves those). -/
def isPySpace (c : Char) : Bool :=
  c == ' ' || c == '\t' || c == '\n' || c == '\x0d' || c == '\x0b' || c == '\x0c'

/-- Python `str.strip()`: drop leading and trailing whitespace. -/
def pyStrip (l : List Char) : List Char :=
  ((l.dropWhile isPySpace).reverse.dropWhile isPySpace).reverse

/-- Python `str.lower()`, modelled character-wise with ASCII lowercasing
(`Char.toLower`); every keyword in the source table is already lower-case
ASCII apart from punctuation that lowercasing leaves unchanged. -/
def pyLower (l : List Char) : List Char := l.map Char.toLower

/-- Worker for `pySplit`: `cur` is the reversed current word being
accumulated. -/
def pySplitGo (cur : List Char) : List Char → List (List Char)
  | [] => if cur = [] then [] else [cur.reverse]
  | c :: rest =>
    if isPySpace c then
      if cur = [] then pySplitGo [] rest
      else cur.reverse :: pySplitGo [] rest
    else pySplitGo (c :: cur) rest

/-- Python `str.split()` with no argument: split on runs of whitespace,
discarding empty pieces. -/
def pySplit (l : List Char) : List (List Char) := pySplitGo [] l

/-- Python `" ".join(words)`. -/
def joinSp : List (List Char) → List Char
  | [] => []
  | [w] => w
  | w :: ws => w ++ ' ' :: joinSp ws

/-- Python substring test `pat in l` (contiguous substring). -/
def isSubstr (pat : List Char) : List Char → Bool
  | [] => pat.isEmpty
  | c :: rest => pat.isPrefixOf (c :: rest) || isSubstr pat rest

/-- `Occurs pat l` states that `pat` appears as a contiguous substring of
`l`; the propositional counterpart of Python's `in` on strings. -/
def Occurs (pat l : List Char) : Prop := ∃ a b, l = a ++ pat ++ b

/-- Named HTML entities recognised by the model of Python's
`html.unescape` (stdlib collaborator, external to this repository — the
model is restricted to a core entity table; the full html5 table is
stdlib data). -/
def namedEntity (name : List Char) : Option Char :=
  if name = toCL "lt" then some '<'
  else if name = toCL "gt" then some '>'
  else if name = toCL "amp" then some '&'
  else if name = toCL "quot" then some '"'
  else if name = toCL "apos" then some '\x27'
  else if name = toCL "nbsp" then some '\xa0'
  else none

/-- Decimal digit value. -/
def decDigit (c : Char) : Option Nat :=
  if '0' ≤ c ∧ c ≤ '9' then some (c.toNat - '0'.toNat) else none

/-- Hexadecimal digit value. -/
def hexDigit (c : Char) : Option Nat :=
  if '0' ≤ c ∧ c ≤ '9' then some (c.toNat - '0'.toNat)
  else if 'a' ≤ c ∧ c ≤ 'f' then some (c.toNat - 'a'.toNat + 10)
  else if 'A' ≤ c ∧ c ≤ 'F' then some (c.toNat - 'A'.toNat + 10)
  else none

/-- Read a digit string as a number, failing on empty input or a
non-digit. -/
def readNum (digit : Char → Option Nat) (base : Nat) (l : List Char) : Option Nat :=
  match l with
  | [] => none
  | _ =>
    l.foldl (fun acc c =>
      match acc, digit c with
      | some n, some d => some (n * base + d)
      | _, _ => none) (some 0)

/-- Decode one character reference body (the text between `&` and `;`):
`#digits`, `#x`/`#X` hex digits, or a named entity. -/
def decodeEntity (body : List Char) : Option Char :=
  match body with
  | '#' :: 'x' :: ds => (readNum hexDigit 16 ds).bind fun n =>
      if n.isValidChar then some (Char.ofNat n) else none
  | '#' :: 'X' :: ds => (readNum hexDigit 16 ds).bind fun n =>
      if n.isValidChar then some (Char.ofNat n) else none
  | '#' :: ds => (readNum decDigit 10 ds).bind fun n =>
      if n.isValidChar then some (Char.ofNat n) else none
  | _ => namedEntity body

/-- Fuel-indexed worker for `unescape` (the recursion consumes the list,
so `fuel = length` suffices; fuel keeps the recursion structural so that
it evaluates by reduction). -/
def unescapeF : Nat → List Char → List Char
  | 0, l => l
  | _ + 1, [] => []
  | fuel + 1, c :: rest =>
    if c = '&' then
      let body := rest.takeWhile (fun d => d ≠ ';' ∧ d ≠ '&')
      match rest.dropWhile (fun d => d ≠ ';' ∧ d ≠ '&') with
      | ';' :: tail =>
        match decodeEntity body with
        | some ch => ch :: unescapeF fuel tail
        | none => c :: unescapeF fuel rest
      | _ => c :: unescapeF fuel rest
    else c :: unescapeF fuel rest

/-- Models Python's `html.unescape` (stdlib collaborator): replace
`&...;` character references by the named character, leaving unmatched
sequences untouched.  Restricted model: semicolon-terminated references
over a core named table plus numeric references. -/
def unescape (l : List Char) : List Char := unescapeF l.length l

/-- Fuel-indexed worker for `removeTags` (fuel = list length suffices;
each step consumes at least one character). -/
def removeTagsF : Nat → List Char → List Char
  | 0, l => l
  | _ + 1, [] => []
  | fuel + 1, c :: rest =>
    if c = '<' then
      let mid := rest.takeWhile (fun d => d ≠ '>')
      match rest.dropWhile (fun d => d ≠ '>') with
      | '>' :: tail =>
        if mid.isEmpty then c :: removeTagsF fuel rest else removeTagsF fuel tail
      | _ => c :: removeTagsF fuel rest
    else c :: removeTagsF fuel rest

/-- Python `re.sub(r"<[^>]+>", "", text)`: delete every occurrence of a
`<`, one or more non-`>` characters, then the next `>` (the regex scans
left to right; a greedy `[^>]+` run always ends at the first following
`>`). -/
def removeTags (l : List Char) : List Char := removeTagsF l.length l

/-- `strip_html` from the source: remove HTML tags and unescape
entities, then collapse whitespace (`" ".join(text.split())`); falsy
(empty) input short-circuits to the empty string. -/
def strip_html (text : List Char) : List Char :=
  if text = [] then []
  else joinSp (pySplit (removeTags (unescape text)))

/-- `SUBJECT_ORDER` from the source: the nine fixed subjects, order
significant. -/
def SUBJECT_ORDER : List (List Char) :=
  [toCL "Economy",
   toCL "Economic Issues and Reforms",
   toCL "Agriculture",
   toCL "Geopolitics",
   toCL "National Security",
   toCL "Foreign Policy",
   toCL "Constitutional Law and Judiciary",
   toCL "Gender",
   toCL "Social Issues"]

/-- `SUBJECT_KEYWORDS` from the source: the keyword table, as a lookup
function on the nine subject labels (the Python dict has exactly these
keys). -/
def SUBJECT_KEYWORDS (subject : List Char) : List (List Char) :=
  if subject = toCL "Economy" then
    [toCL "economy", toCL "economic growth", toCL "gdp", toCL "inflation",
     toCL "interest rate", toCL "sbp", toCL "state bank", toCL "pkru",
     toCL "stock market", toCL "psx", toCL "fiscal deficit",
     toCL "current account", toCL "trade deficit", toCL "remittances"]
  else if subject = toCL "Economic Issues and Reforms" then
    [toCL "imf", toCL "reforms", toCL "privatisation", toCL "privatization",
     toCL "tax reform", toCL "fbr", toCL "revenue", toCL "subsidy",
     toCL "circular debt", toCL "energy tariff", toCL "structural reform",
     toCL "privatising", toCL "austerity"]
  else if subject = toCL "Agriculture" then
    [toCL "agriculture", toCL "crop", toCL "wheat", toCL "cotton",
     toCL "rice", toCL "sugarcane", toCL "fertiliser", toCL "fertilizer",
     toCL "farmer", toCL "livestock", toCL "waterlogging", toCL "canal",
     toCL "irrigation", toCL "agri"]
  else if subject = toCL "Geopolitics" then
    [toCL "geopolitics", toCL "great power", toCL "china", toCL "india",
     toCL "us", toCL "russia", toCL "middle east", toCL "gulf",
     toCL "saudi", toCL "iran", toCL "turkey", toCL "taliban",
     toCL "multipolar", toCL "cold war", toCL "bloc"]
  else if subject = toCL "National Security" then
    [toCL "terror", toCL "terrorism", toCL "militant", toCL "ctd",
     toCL "security forces", toCL "army", toCL "military", toCL "nacta",
     toCL "internal security", toCL "insurgency", toCL "balochistan unrest",
     toCL "taksim", toCL "counterterrorism"]
  else if subject = toCL "Foreign Policy" then
    [toCL "foreign policy", toCL "diplomacy", toCL "bilateral",
     toCL "summit", toCL "oic", toCL "unsc", toCL "united nations",
     toCL "strategic partnership", toCL "border", toCL "kashmir",
     toCL "fm", toCL "foreign office", toCL "fo spokesperson"]
  else if subject = toCL "Constitutional Law and Judiciary" then
    [toCL "supreme court", toCL "sc", toCL "high court", toCL "lhr hc",
     toCL "shc", toCL "ihc", toCL "constitution", toCL "constitutional",
     toCL "article", toCL "basic structure", toCL "judiciary",
     toCL "bench", toCL "locus standi", toCL "habeas corpus",
     toCL "reference"]
  else if subject = toCL "Gender" then
    [toCL "women", toCL "gender", toCL "harassment",
     toCL "violence against women", toCL "domestic violence",
     toCL "honour killing", toCL "honor killing", toCL "girls’ education",
     toCL "women’s rights", toCL "gender parity", toCL "sexual harassment"]
  else if subject = toCL "Social Issues" then
    [toCL "poverty", toCL "inequality", toCL "healthcare", toCL "education",
     toCL "literacy", toCL "housing", toCL "slums",
     toCL "informal settlements", toCL "malnutrition", toCL "stunting",
     toCL "public health", toCL "epidemic", toCL "social safety net",
     toCL "bisp", toCL "ehsaas", toCL "youth", toCL "labour",
     toCL "labor rights"]
  else []

/-- The classifier's match target: `(title + " " + summary).lower()`. -/
def blobOf (title summary : List Char) : List Char :=
  pyLower (title ++ ' ' :: summary)

/-- Whether some keyword of `subject` occurs in `blob` (the inner loop of
`classify_subject`; the keyword is lowercased before matching, as in the
source). -/
def subjectMatches (subject blob : List Char) : Bool :=
  (SUBJECT_KEYWORDS subject).any (fun kw => isSubstr (pyLower kw) blob)

/-- `classify_subject` from the source: lowercase the concatenated title
and summary, then return the first subject in `SUBJECT_ORDER` one of
whose keywords is a substring of the blob (`None` when no keyword
matches).  The nested for-loops with early return are embedded as
`find?` over the order with `any` over each keyword list. -/
def classify_subject (title summary : List Char) : Option (List Char) :=
  SUBJECT_ORDER.find? (fun subject => subjectMatches subject (blobOf title summary))

/-- The (subject, keyword) pair at which `classify_subject`'s nested loop
performs its early return: the first subject in order with a matching
keyword, paired with the first matching keyword of that subject in
declared list order. -/
def classify_first_keyword (title summary : List Char) :
    Option (List Char × List Char) :=
  SUBJECT_ORDER.findSome? (fun subject =>
    ((SUBJECT_KEYWORDS subject).find?
      (fun kw => isSubstr (pyLower kw) (blobOf title summary))).map
      (fun kw => (subject, kw)))

/-- A feed entry as exposed by the external feed-parsing collaborator:
`title`, `summary`, `link` string fields, with an absent field modelled
as the empty string (the source reads them via `entry.get(..., "")`). -/
structure Entry where
  title : List Char
  summary : List Char
  link : List Char
deriving DecidableEq, Repr

/-- An `Article` dict as built in `fetch_articles`. -/
structure Article where
  source : List Char
  title : List Char
  summary : List Char
  link : List Char
deriving DecidableEq, Repr

/-- The `classified` dict, as a total map from subject label to its
bucket; keys outside `SUBJECT_ORDER` are never populated and read as
the empty bucket. -/
def Buckets : Type := List Char → List Article

/-- The initial `classified = \x7bsubject: [] for subject in SUBJECT_ORDER\x7d`. -/
def emptyBuckets : Buckets := fun _ => []

/-- `classified[subject].append(item)`. -/
def bucketAppend (cl : Buckets) (subject : List Char) (item : Article) : Buckets :=
  fun s => if s = subject then cl s ++ [item] else cl s

/-- `FEEDS` from the source: source label paired with its feed URLs, in
declared (insertion) order. -/
def FEEDS : List (List Char × List (List Char)) :=
  [(toCL "Dawn", [toCL "https://www.dawn.com/feeds/home"]),
   (toCL "The Express Tribune",
     [toCL "https://tribune.com.pk/feed/latest",
      toCL "https://tribune.com.pk/feed/opinion"])]

/-- The result of one `feedparser.parse(url)` call: either a raised
exception (message string) or the list of entries. -/
def ParseResult : Type := Except (List Char) (List Entry)

/-- The external feed-fetch collaborator, as a function from URL to
outcome. -/
def Parser : Type := List Char → ParseResult

/-- The article built from one accepted entry (title and link are
whitespace-trimmed; only the summary passes through `strip_html`). -/
def mkArticle (source : List Char) (e : Entry) : Article :=
  { source := source
    title := pyStrip e.title
    summary := strip_html e.summary
    link := pyStrip e.link }

/-- The per-entry body of `fetch_articles`: skip when the trimmed title
is blank; normalize the summary; skip when no subject matches; otherwise
append the article to its subject's bucket. -/
def process_entry (source : List Char) (cl : Buckets) (e : Entry) : Buckets :=
  if pyStrip e.title = [] then cl
  else
    match classify_subject (pyStrip e.title) (strip_html e.summary) with
    | none => cl
    | some subject => bucketAppend cl subject (mkArticle source e)

/-- The per-URL body of `fetch_articles`: a parse failure is caught and
the URL skipped (`continue`); otherwise every entry is processed in
feed-return order. -/
def process_url (parse : Parser) (source : List Char) (cl : Buckets)
    (url : List Char) : Buckets :=
  match parse url with
  | .error _ => cl
  | .ok entries => entries.foldl (process_entry source) cl

/-- The accumulation loop of `fetch_articles` over all sources and URLs
in configured order, before truncation. -/
def fetch_collect (parse : Parser) : Buckets :=
  FEEDS.foldl (fun cl su => su.2.foldl (process_url parse su.1) cl) emptyBuckets

/-- `MAX_PER_SUBJECT` from the source. -/
def MAX_PER_SUBJECT : Nat := 6

/-- The final truncation loop of `fetch_articles`:
`classified[subject] = classified[subject][:MAX_PER_SUBJECT]` for each
subject in `SUBJECT_ORDER`. -/
def truncate_buckets (cl : Buckets) : Buckets :=
  fun s => if s ∈ SUBJECT_ORDER then (cl s).take MAX_PER_SUBJECT else cl s

/-- `fetch_articles` from the source, parameterized by the external
feed-fetch collaborator. -/
def fetch_articles (parse : Parser) : Buckets :=
  truncate_buckets (fetch_collect parse)

/-- Whether `parse` fails on `url` (the `except` branch is taken). -/
def parseFails (parse : Parser) (url : List Char) : Bool :=
  match parse url with
  | .error _ => true
  | .ok _ => false

/-- The `[WARN]` log of `fetch_articles`: one warning per failing URL,
in processing order (the source prints
`[WARN] Could not parse feed {url}: {e}`; the warning is modelled by the
URL it names). -/
def fetch_warnings (parse : Parser) : List (List Char) :=
  FEEDS.foldl (fun ws su => su.2.foldl (fun ws url =>
    match parse url with
    | .error _ => ws ++ [url]
    | .ok _ => ws) ws) []

/-- The (source, URL) pairs processed by the aggregator, in configured
order. -/
def feedPairs : List (List Char × List Char) :=
  FEEDS.flatMap (fun su => su.2.map (fun u => (su.1, u)))

/-- The fixed document head emitted by `build_html` (doctype, style
sheet, page header), verbatim from the source's first `parts.append`
literal. -/
def HTML_HEAD : List Char := toCL "<!DOCTYPE html>
<html lang=\"en\">
<head>
  <meta charset=\"UTF-8\" />
  <title>CSS Current Affairs Newsletter</title>
  <meta name=\"viewport\" content=\"width=device-width, initial-scale=1\" />
  <link rel=\"preconnect\" href=\"https://fonts.googleapis.com\" />
  <link rel=\"preconnect\" href=\"https://fonts.gstatic.com\" crossorigin />
  <link href=\"https://fonts.googleapis.com/css2?family=Inter:wght@300;400;500;600;700&display=swap\" rel=\"stylesheet\" />
  <style>
    :root \x7b
      --primary: #035076;
      --bg: #f5f7fb;
      --card-bg: #ffffff;
      --text-main: #111827;
      --text-muted: #6b7280;
      --border: #e5e7eb;
    \x7d
    * \x7b box-sizing: border-box; \x7d
    body \x7b
      margin: 0;
      padding: 0;
      font-family: \x27Inter\x27, system-ui, -apple-system, BlinkMacSystemFont, \x27Segoe UI\x27, sans-serif;
      background: var(--bg);
      color: var(--text-main);
    \x7d
    .container \x7b
      max-width: 900px;
      margin: 24px auto 40px;
      padding: 0 16px;
    \x7d
    header \x7b
      background: var(--primary);
      color: white;
      padding: 20px 16px;
      margin: -8px 0 24px;
    \x7d
    header h1 \x7b
      margin: 0;
      font-size: 1.8rem;
      font-weight: 600;
    \x7d
    header p \x7b
      margin: 4px 0 0;
      font-size: 0.95rem;
      opacity: 0.85;
    \x7d
    .date \x7b
      margin: 0 0 24px;
      font-size: 0.9rem;
      color: var(--text-muted);
    \x7d
    .subject \x7b
      margin-bottom: 28px;
    \x7d
    .subject h2 \x7b
      font-size: 1.2rem;
      margin-bottom: 8px;
      color: var(--primary);
      border-left: 4px solid var(--primary);
      padding-left: 8px;
    \x7d
    .subject-description \x7b
      margin: 0 0 10px;
      font-size: 0.9rem;
      color: var(--text-muted);
    \x7d
    .item \x7b
      background: var(--card-bg);
      border-radius: 10px;
      border: 1px solid var(--border);
      padding: 10px 12px;
      margin-bottom: 8px;
    \x7d
    .item h3 \x7b
      margin: 0 0 4px;
      font-size: 0.95rem;
    \x7d
    .meta \x7b
      margin: 0 0 4px;
      font-size: 0.75rem;
      text-transform: uppercase;
      letter-spacing: 0.04em;
      color: var(--text-muted);
    \x7d
    .summary \x7b
      margin: 0 0 6px;
      font-size: 0.88rem;
      color: var(--text-main);
    \x7d
    a \x7b
      color: var(--primary);
      text-decoration: none;
      font-size: 0.85rem;
    \x7d
    a:hover \x7b
      text-decoration: underline;
    \x7d
    footer \x7b
      margin-top: 32px;
      font-size: 0.8rem;
      color: var(--text-muted);
      text-align: center;
    \x7d
  </style>
</head>
<body>
  <header>
    <div class=\"container\">
      <h1>CSS Current Affairs Newsletter</h1>
      <p>Dawn & The Express Tribune • Key news and op-eds • Essay-focused subjects</p>
    </div>
  </header>
  <main class=\"container\">
"

/-- The fixed document tail emitted by `build_html`, verbatim from the
source's last `parts.append` literal. -/
def HTML_FOOT : List Char := toCL "  </main>
  <footer>
    Curated automatically from public RSS feeds of Dawn & The Express Tribune for personal study use.
  </footer>
</body>
</html>
"

/-- The generation-timestamp line
(`f-string with date_str spliced in`). `build_html` computes
`date_str = datetime.now().strftime(...)`; the embedding takes the
rendered timestamp as a parameter, since wall-clock time is an external
input. -/
def dateLinePart (date_str : List Char) : List Char :=
  toCL "    <p class=\"date\">Generated on " ++ date_str ++
    toCL " (for personal reading / CSS prep)</p>\n"

/-- Section-opening literal. -/
def SECTION_OPEN : List Char := toCL "    <section class=\"subject\">\n"

/-- Fixed per-section description paragraph. -/
def SECTION_DESC : List Char :=
  toCL "      <p class=\"subject-description\">Scan these for arguments, data points, and case studies you can plug into essays.</p>\n"

/-- Section-closing literal. -/
def SECTION_CLOSE : List Char := toCL "    </section>\n"

/-- The strings appended to `parts` for one article card (the summary
paragraph is appended only when the summary is truthy, i.e.
non-empty). -/
def cardParts (item : Article) : List (List Char) :=
  [toCL "      <article class=\"item\">\n",
   toCL "        <h3>" ++ item.title ++ toCL "</h3>\n",
   toCL "        <p class=\"meta\">" ++ item.source ++ toCL "</p>\n"]
  ++ (if item.summary = [] then []
      else [toCL "        <p class=\"summary\">" ++ item.summary ++ toCL "</p>\n"])
  ++ [toCL "        <a href=\"" ++ item.link ++
        toCL "\" target=\"_blank\" rel=\"noopener noreferrer\">Read full piece</a>\n",
      toCL "      </article>\n"]

/-- The strings appended to `parts` for one subject: nothing when the
bucket is empty (`continue`), else the section wrapper, heading,
description and one card per article. -/
def sectionParts (cl : Buckets) (subject : List Char) : List (List Char) :=
  let items := cl subject
  if items = [] then []
  else
    [SECTION_OPEN, toCL "      <h2>" ++ subject ++ toCL "</h2>\n", SECTION_DESC]
    ++ items.flatMap cardParts ++ [SECTION_CLOSE]

/-- `build_html` from the source: the `parts` list (head, date line, the
per-subject loop over `SUBJECT_ORDER`, tail), joined with
`"".join(parts)`. -/
def build_html (cl : Buckets) (date_str : List Char) : List Char :=
  (([HTML_HEAD, dateLinePart date_str]
    ++ SUBJECT_ORDER.flatMap (sectionParts cl)) ++ [HTML_FOOT]).flatten

/-- One rendered article card, as the specification describes it (title,
source label, optional summary, link). -/
def renderCard (item : Article) : List Char :=
  toCL "      <article class=\"item\">\n"
  ++ (toCL "        <h3>" ++ item.title ++ toCL "</h3>\n")
  ++ (toCL "        <p class=\"meta\">" ++ item.source ++ toCL "</p>\n")
  ++ (if item.summary = [] then []
      else toCL "        <p class=\"summary\">" ++ item.summary ++ toCL "</p>\n")
  ++ (toCL "        <a href=\"" ++ item.link ++
        toCL "\" target=\"_blank\" rel=\"noopener noreferrer\">Read full piece</a>\n")
  ++ toCL "      </article>\n"

/-- One rendered subject section, as the specification describes it. -/
def renderSection (subject : List Char) (items : List Article) : List Char :=
  SECTION_OPEN ++ (toCL "      <h2>" ++ subject ++ toCL "</h2>\n") ++ SECTION_DESC
  ++ (items.map renderCard).flatten ++ SECTION_CLOSE

/-- The static renderer as described by the specification's words: a
fixed head, the timestamp line, one section per non-empty subject in
declared subject order (subjects with zero articles omitted entirely),
and a fixed tail.  Compared against `build_html` in the refinement
theorem. -/
def build_html_spec (cl : Buckets) (date_str : List Char) : List Char :=
  HTML_HEAD ++ dateLinePart date_str
  ++ ((SUBJECT_ORDER.filter (fun s => !(cl s).isEmpty)).map
       (fun s => renderSection s (cl s))).flatten
  ++ HTML_FOOT

/-- The whitespace discipline of `" ".join(text.split())` output: no two
adjacent whitespace characters, and no leading or trailing whitespace. -/
def WsCollapsed (l : List Char) : Prop :=
  List.Chain' (fun a b => isPySpace a = false ∨ isPySpace b = false) l
  ∧ (∀ c ∈ l.head?, isPySpace c = false)
  ∧ (∀ c ∈ l.getLast?, isPySpace c = false)

/-- A parser in which every failure has been replaced by a successful
parse returning zero entries; used to state that the aggregator treats a
failing URL exactly as a URL with no entries. -/
def recover (parse : Parser) : Parser := fun url =>
  match parse url with
  | .error _ => .ok []
  | .ok es => .ok es

/-- A collaborator for which every URL fails (zero reachable feed
URLs). -/
def parseFailAll : Parser := fun url => .error url

/-- A concrete feed entry used as a witness input. -/
def entryEcon : Entry :=
  { title := toCL "SBP raises interest rate amid inflation concerns"
    summary := []
    link := toCL "https://example.com/a" }

/-- A concrete collaborator returning one entry on the Dawn feed and no
entries elsewhere; used as a witness input. -/
def parseOne : Parser := fun url =>
  if url = toCL "https://www.dawn.com/feeds/home" then .ok [entryEcon]
  else .ok []

theorem find?_split {α : Type} (p : α → Bool) (a : α) :
    ∀ l : List α, l.find? p = some a ↔
      p a = true ∧ ∃ l₁ l₂, l = l₁ ++ a :: l₂ ∧ ∀ x ∈ l₁, p x = false := by
  intro l
  induction l with
  | nil => simp
  | cons b t ih =>
    rw [List.find?_cons]
    by_cases hb : p b = true
    · simp only [hb]
      constructor
      · rintro h
        cases h
        exact ⟨hb, [], t, rfl, by simp⟩
      · rintro ⟨hpa, l₁, l₂, hsplit, hall⟩
        cases l₁ with
        | nil => simp at hsplit; rw [hsplit.1]
        | cons c l₁' =>
          simp only [List.cons_append, List.cons.injEq] at hsplit
          have := hall c (by simp)
          rw [← hsplit.1] at this
          rw [this] at hb
          cases hb
    · simp only [Bool.not_eq_true] at hb
      simp only [hb]
      rw [ih]
      constructor
      · rintro ⟨hpa, l₁, l₂, hsplit, hall⟩
        refine ⟨hpa, b :: l₁, l₂, by rw [hsplit]; rfl, ?_⟩
        intro x hx
        rcases List.mem_cons.mp hx with h | h
        · rw [h]; exact hb
        · exact hall x h
      · rintro ⟨hpa, l₁, l₂, hsplit, hall⟩
        cases l₁ with
        | nil =>
          simp at hsplit
          rw [← hsplit.1] at hpa
          rw [hpa] at hb
          cases hb
        | cons c l₁' =>
          simp only [List.cons_append, List.cons.injEq] at hsplit
          refine ⟨hpa, l₁', l₂, hsplit.2, ?_⟩
          intro x hx
          exact hall x (by simp [hx])

theorem find?_first_bias {α : Type} [BEq α] [LawfulBEq α] (p : α → Bool) :
    ∀ l : List α, l.Nodup → ∀ x y, x ∈ l →
      l.indexOf x < l.indexOf y → p x = true → l.find? p ≠ some y := by
  intro l
  induction l with
  | nil => simp
  | cons a t ih =>
    intro hnd x y hx hidx hpx hfind
    rw [List.find?_cons] at hfind
    rcases List.nodup_cons.mp hnd with ⟨hat, hndt⟩
    by_cases ha : p a = true
    · simp only [ha] at hfind
      have hy : y = a := (Option.some.inj hfind).symm
      subst hy
      have h0 : (y :: t).indexOf y = 0 := by
        simp [List.indexOf, List.findIdx_cons]
      omega
    · simp only [Bool.not_eq_true] at ha
      simp only [ha] at hfind
      have hxa : x ≠ a := fun h => by rw [h, ha] at hpx; cases hpx
      have hxt : x ∈ t := by
        rcases List.mem_cons.mp hx with h | h
        · exact absurd h hxa
        · exact h
      have hya : y ≠ a := by
        intro h
        rw [h] at hfind
        exact hat (List.mem_of_find?_eq_some hfind)
      have hax : (a == x) = false := beq_eq_false_iff_ne.mpr (fun h => hxa h.symm)
      have hay : (a == y) = false := beq_eq_false_iff_ne.mpr (fun h => hya h.symm)
      have hix : (a :: t).indexOf x = t.indexOf x + 1 := by
        simp [List.indexOf, List.findIdx_cons, hax]
      have hiy : (a :: t).indexOf y = t.indexOf y + 1 := by
        simp [List.indexOf, List.findIdx_cons, hay]
      exact ih hndt x y hxt (by omega) hpx hfind

theorem subject_order_nodup : SUBJECT_ORDER.Nodup := by decide

/-- C1: `classify_subject` lowercases the concatenation of title and
summary and scans `SUBJECT_ORDER` in declared order, returning the first
Subject one of whose keywords is a literal substring of the blob; it
returns `none` exactly when no keyword of any Subject is a substring;
consequently it is order-biased: whenever an earlier-ordered Subject
matches the blob, a later-ordered Subject is never returned. -/
theorem claim_C1 :
    ∀ title summary : List Char,
      (classify_subject title summary = none ↔
        ∀ subj ∈ SUBJECT_ORDER,
          subjectMatches subj (blobOf title summary) = false)
      ∧ (∀ subj, classify_subject title summary = some subj ↔
          (subjectMatches subj (blobOf title summary) = true ∧
           ∃ l₁ l₂, SUBJECT_ORDER = l₁ ++ subj :: l₂ ∧
             ∀ s' ∈ l₁, subjectMatches s' (blobOf title summary) = false))
      ∧ (∀ s₁ s₂, s₁ ∈ SUBJECT_ORDER →
          SUBJECT_ORDER.indexOf s₁ < SUBJECT_ORDER.indexOf s₂ →
          subjectMatches s₁ (blobOf title summary) = true →
          classify_subject title summary ≠ some s₂) := by
  intro title summary
  refine ⟨?_, ?_, ?_⟩
  · rw [classify_subject, List.find?_eq_none]
    constructor
    · intro h subj hs
      have := h subj hs
      simpa using this
    · intro h subj hs
      simp [h subj hs]
  · intro subj
    exact find?_split (fun s => subjectMatches s (blobOf title summary)) subj
      SUBJECT_ORDER
  · intro s₁ s₂ h₁ hidx hm
    exact find?_first_bias _ SUBJECT_ORDER subject_order_nodup s₁ s₂ h₁ hidx hm

/-- Witness for C1 at a concrete blob matching both "Economy" (keyword
"inflation") and the later-ordered "Geopolitics" (keyword "china"): the
classifier never returns the later Subject. -/
theorem claim_C1_witness :
    classify_subject (toCL "inflation in china") [] ≠ some (toCL "Geopolitics") :=
  (claim_C1 (toCL "inflation in china") []).2.2 (toCL "Economy") (toCL "Geopolitics")
    (by decide) (by decide) (by decide)

/-- C9 counterexample: on the title
"SBP raises interest rate amid inflation concerns" with empty summary,
the keyword at which the classifier's scan first matches is not
"interest rate" (it is "inflation", which precedes "interest rate" in
the Economy keyword list). -/
theorem claim_C9_cex :
    classify_first_keyword
      (toCL "SBP raises interest rate amid inflation concerns") [] ≠
      some (toCL "Economy", toCL "interest rate") := by
  decide

/-- C9 (amended): on that title with empty summary, `classify_subject`
returns "Economy", and the first matching keyword is "inflation". -/
theorem claim_C9 :
    classify_subject
      (toCL "SBP raises interest rate amid inflation concerns") [] =
      some (toCL "Economy")
    ∧ classify_first_keyword
      (toCL "SBP raises interest rate amid inflation concerns") [] =
      some (toCL "Economy", toCL "inflation") := by
  exact ⟨by decide, by decide⟩

theorem pySplitGo_words :
    ∀ l cur : List Char, (∀ c ∈ cur, isPySpace c = false) →
      ∀ w ∈ pySplitGo cur l, w ≠ [] ∧ ∀ c ∈ w, isPySpace c = false := by
  intro l
  induction l with
  | nil =>
    intro cur hcur w hw
    by_cases h : cur = []
    · simp [pySplitGo, h] at hw
    · simp only [pySplitGo, if_neg h, List.mem_singleton] at hw
      subst hw
      refine ⟨by simpa using h, ?_⟩
      intro c hc
      exact hcur c (List.mem_reverse.mp hc)
  | cons a rest ih =>
    intro cur hcur w hw
    by_cases hsp : isPySpace a = true
    · by_cases h : cur = []
      · rw [pySplitGo, if_pos hsp, if_pos h] at hw
        exact ih [] (by simp) w hw
      · rw [pySplitGo, if_pos hsp, if_neg h] at hw
        rcases List.mem_cons.mp hw with hw | hw
        · subst hw
          refine ⟨by simpa using h, ?_⟩
          intro c hc
          exact hcur c (List.mem_reverse.mp hc)
        · exact ih [] (by simp) w hw
    · rw [pySplitGo, if_neg hsp] at hw
      refine ih (a :: cur) ?_ w hw
      intro c hc
      rcases List.mem_cons.mp hc with hc | hc
      · subst hc
        exact Bool.not_eq_true _ ▸ hsp
      · exact hcur c hc

theorem joinSp_ne_nil {w : List Char} (hw : w ≠ []) (ws : List (List Char)) :
    joinSp (w :: ws) ≠ [] := by
  cases ws with
  | nil => simpa [joinSp] using hw
  | cons x ys => simp [joinSp]

theorem joinSp_head? {w : List Char} (hw : w ≠ []) (ws : List (List Char)) :
    (joinSp (w :: ws)).head? = w.head? := by
  cases ws with
  | nil => rfl
  | cons x ys =>
    show (w ++ ' ' :: joinSp (x :: ys)).head? = w.head?
    rw [List.head?_append]
    cases w with
    | nil => exact absurd rfl hw
    | cons c t => rfl

theorem joinSp_collapsed :
    ∀ ws : List (List Char),
      (∀ w ∈ ws, w ≠ [] ∧ ∀ c ∈ w, isPySpace c = false) →
      WsCollapsed (joinSp ws) := by
  intro ws
  induction ws with
  | nil =>
    intro _
    exact ⟨List.chain'_nil, by simp [joinSp], by simp [joinSp]⟩
  | cons w ws ih =>
    intro h
    rcases h w (by simp) with ⟨hw, hwc⟩
    cases ws with
    | nil =>
      refine ⟨?_, ?_, ?_⟩
      · exact List.Pairwise.chain'
          (List.pairwise_of_forall_mem_list (fun a ha b _ => Or.inl (hwc a ha)))
      · intro c hc
        exact hwc c (List.mem_of_mem_head? hc)
      · intro c hc
        exact hwc c (List.mem_of_mem_getLast? hc)
    | cons x ys =>
      have hx := h x (by simp)
      rcases ih (fun v hv => h v (List.mem_cons_of_mem _ hv)) with ⟨ich, _, ilt⟩
      have hJne : joinSp (x :: ys) ≠ [] := joinSp_ne_nil hx.1 ys
      show WsCollapsed (w ++ ' ' :: joinSp (x :: ys))
      refine ⟨?_, ?_, ?_⟩
      · apply List.Chain'.append
        · exact List.Pairwise.chain'
            (List.pairwise_of_forall_mem_list (fun a ha b _ => Or.inl (hwc a ha)))
        · rw [List.chain'_cons']
          refine ⟨?_, ich⟩
          intro y hy
          right
          rw [joinSp_head? hx.1 ys] at hy
          exact hx.2 y (List.mem_of_mem_head? hy)
        · intro a ha b _
          exact Or.inl (hwc a (List.mem_of_mem_getLast? ha))
      · intro c hc
        have hh : (w ++ ' ' :: joinSp (x :: ys)).head? = w.head? := by
          rw [List.head?_append]
          cases w with
          | nil => exact absurd rfl hw
          | cons d t => rfl
        rw [hh] at hc
        exact hwc c (List.mem_of_mem_head? hc)
      · intro c hc
        rw [List.getLast?_append] at hc
        rcases hJ : (joinSp (x :: ys)).getLast? with _ | z
        · exact absurd (List.getLast?_eq_none_iff.mp hJ) hJne
        · have h1 : (' ' :: joinSp (x :: ys)).getLast? = some z := by
            rw [List.getLast?_cons, hJ]
            rfl
          rw [h1, Option.or_some, Option.mem_def] at hc
          cases hc
          exact ilt c (by rw [hJ]; rfl)

theorem strip_html_collapsed (s : List Char) : WsCollapsed (strip_html s) := by
  rw [strip_html]
  by_cases h : s = []
  · rw [if_pos h]
    exact ⟨List.chain'_nil, by simp, by simp⟩
  · rw [if_neg h]
    exact joinSp_collapsed _ (pySplitGo_words _ [] (by simp))

/-- C2 counterexample: the Text Normalizer's output can contain `<`
(input `"<"`: the tag regex deletes only complete tags), `>` (input
`">"`), and an HTML entity sequence (input `"&amp;amp;"`, whose single
decoding pass yields the entity sequence `"&amp;"`), refuting the "no
`<` or `>` characters and no entity sequences" part of the claim. -/
theorem claim_C2_cex :
    ('<' ∈ strip_html (toCL "<"))
    ∧ ('>' ∈ strip_html (toCL ">"))
    ∧ strip_html (toCL "&amp;amp;") = toCL "&amp;" := by
  exact ⟨by decide, by decide, by decide⟩

/-- C2 (amended): for every input string, the Text Normalizer's output
has no two adjacent whitespace characters and no leading or trailing
whitespace; it may, however, still contain `<`, `>`, or entity
sequences when the input's markup does not form complete tags. -/
theorem claim_C2 : ∀ s : List Char, WsCollapsed (strip_html s) :=
  strip_html_collapsed

/-- C5: `strip_html` is a total function on strings: empty input yields
the empty string, every non-empty input flows through the
entity-decoding, tag-removal and whitespace-collapsing pipeline, and
every output has single-space-collapsed whitespace with no leading or
trailing space. -/
theorem claim_C5 :
    strip_html [] = []
    ∧ (∀ s : List Char, s ≠ [] →
        strip_html s = joinSp (pySplit (removeTags (unescape s))))
    ∧ (∀ s : List Char, WsCollapsed (strip_html s)) := by
  refine ⟨rfl, ?_, strip_html_collapsed⟩
  intro s hs
  rw [strip_html, if_neg hs]

/-- Witness for C5 at the concrete input "a". -/
theorem claim_C5_witness :
    (toCL "a" ≠ []) ∧
      strip_html (toCL "a") = joinSp (pySplit (removeTags (unescape (toCL "a")))) :=
  ⟨by decide, claim_C5.2.1 (toCL "a") (by decide)⟩

theorem mem_bucketAppend {cl : Buckets} {subject : List Char} {item : Article}
    {s : List Char} {a : Article} :
    a ∈ bucketAppend cl subject item s ↔ a ∈ cl s ∨ (s = subject ∧ a = item) := by
  unfold bucketAppend
  by_cases h : s = subject
  · subst h
    simp
  · simp [h]

theorem mem_process_entry {source : List Char} {cl : Buckets} {e : Entry}
    {s : List Char} {a : Article} :
    a ∈ process_entry source cl e s ↔
      a ∈ cl s ∨ (pyStrip e.title ≠ [] ∧
        classify_subject (pyStrip e.title) (strip_html e.summary) = some s ∧
        a = mkArticle source e) := by
  unfold process_entry
  by_cases ht : pyStrip e.title = []
  · simp [ht]
  · rw [if_neg ht]
    cases hc : classify_subject (pyStrip e.title) (strip_html e.summary) with
    | none => simp [ht, hc]
    | some subj =>
      rw [mem_bucketAppend]
      constructor
      · rintro (h | ⟨hs, ha⟩)
        · exact Or.inl h
        · subst hs
          exact Or.inr ⟨ht, rfl, ha⟩
      · rintro (h | ⟨_, hcs, ha⟩)
        · exact Or.inl h
        · cases hcs
          exact Or.inr ⟨rfl, ha⟩

theorem mem_foldl_entries {source : List Char} :
    ∀ (entries : List Entry) (cl : Buckets) (s : List Char) (a : Article),
      a ∈ (entries.foldl (process_entry source) cl) s ↔
        a ∈ cl s ∨ ∃ e ∈ entries, pyStrip e.title ≠ [] ∧
          classify_subject (pyStrip e.title) (strip_html e.summary) = some s ∧
          a = mkArticle source e := by
  intro entries
  induction entries with
  | nil => simp
  | cons e es ih =>
    intro cl s a
    rw [List.foldl_cons, ih, mem_process_entry]
    constructor
    · rintro ((h | hnew) | ⟨e', he', rest⟩)
      · exact Or.inl h
      · exact Or.inr ⟨e, by simp, hnew⟩
      · exact Or.inr ⟨e', by simp [he'], rest⟩
    · rintro (h | ⟨e', he', rest⟩)
      · exact Or.inl (Or.inl h)
      · rcases List.mem_cons.mp he' with he' | he'
        · subst he'
          exact Or.inl (Or.inr rest)
        · exact Or.inr ⟨e', he', rest⟩

theorem mem_process_url {parse : Parser} {source url : List Char}
    {cl : Buckets} {s : List Char} {a : Article} :
    a ∈ process_url parse source cl url s ↔
      a ∈ cl s ∨ ∃ es, parse url = .ok es ∧ ∃ e ∈ es,
        pyStrip e.title ≠ [] ∧
        classify_subject (pyStrip e.title) (strip_html e.summary) = some s ∧
        a = mkArticle source e := by
  unfold process_url
  cases hp : parse url with
  | error msg => simp
  | ok es =>
    rw [mem_foldl_entries]
    constructor
    · rintro (h | hrest)
      · exact Or.inl h
      · exact Or.inr ⟨es, rfl, hrest⟩
    · rintro (h | ⟨es', hes, hrest⟩)
      · exact Or.inl h
      · cases hes
        exact Or.inr hrest

theorem fetch_collect_eq (parse : Parser) :
    fetch_collect parse =
      process_url parse (toCL "The Express Tribune")
        (process_url parse (toCL "The Express Tribune")
          (process_url parse (toCL "Dawn") emptyBuckets
            (toCL "https://www.dawn.com/feeds/home"))
          (toCL "https://tribune.com.pk/feed/latest"))
        (toCL "https://tribune.com.pk/feed/opinion") := rfl

theorem mem_fetch_collect {parse : Parser} {s : List Char} {a : Article} :
    a ∈ fetch_collect parse s ↔
      ∃ p ∈ feedPairs, ∃ es, parse p.2 = .ok es ∧ ∃ e ∈ es,
        pyStrip e.title ≠ [] ∧
        classify_subject (pyStrip e.title) (strip_html e.summary) = some s ∧
        a = mkArticle p.1 e := by
  rw [fetch_collect_eq, mem_process_url, mem_process_url, mem_process_url]
  have hpairs : feedPairs =
      [(toCL "Dawn", toCL "https://www.dawn.com/feeds/home"),
       (toCL "The Express Tribune", toCL "https://tribune.com.pk/feed/latest"),
       (toCL "The Express Tribune", toCL "https://tribune.com.pk/feed/opinion")] := rfl
  rw [hpairs]
  simp only [emptyBuckets, List.not_mem_nil, List.mem_cons, List.mem_singleton]
  constructor
  · rintro (((hf | h) | h) | h)
    · exact hf.elim
    · exact ⟨_, Or.inl rfl, h⟩
    · exact ⟨_, Or.inr (Or.inl rfl), h⟩
    · exact ⟨_, Or.inr (Or.inr (Or.inl rfl)), h⟩
  · rintro ⟨p, (hp | hp | hp | hp), hrest⟩
    · subst hp
      exact Or.inl (Or.inl (Or.inr hrest))
    · subst hp
      exact Or.inl (Or.inr hrest)
    · subst hp
      exact Or.inr hrest
    · simp at hp

theorem classify_mem_order {t u subj : List Char}
    (h : classify_subject t u = some subj) : subj ∈ SUBJECT_ORDER :=
  List.mem_of_find?_eq_some h

theorem fetch_collect_not_order {parse : Parser} {s : List Char}
    (hs : s ∉ SUBJECT_ORDER) : fetch_collect parse s = [] := by
  by_contra h
  obtain ⟨a, ha⟩ := List.exists_mem_of_ne_nil _ h
  rw [mem_fetch_collect] at ha
  obtain ⟨p, _, es, _, e, _, _, hcl, _⟩ := ha
  exact hs (classify_mem_order hcl)

theorem mem_fetch_articles {parse : Parser} {s : List Char} {a : Article}
    (h : a ∈ fetch_articles parse s) : a ∈ fetch_collect parse s := by
  unfold fetch_articles truncate_buckets at h
  by_cases hm : s ∈ SUBJECT_ORDER
  · rw [if_pos hm] at h
    exact List.mem_of_mem_take h
  · rwa [if_neg hm] at h

theorem fetch_classified {parse : Parser} {s : List Char} {a : Article}
    (h : a ∈ fetch_articles parse s) :
    a.title ≠ [] ∧ classify_subject a.title a.summary = some s := by
  have h' := mem_fetch_collect.mp (mem_fetch_articles h)
  obtain ⟨p, _, es, _, e, _, ht, hcl, ha⟩ := h'
  subst ha
  exact ⟨ht, hcl⟩

theorem pyStrip_eq_rdropWhile (l : List Char) :
    pyStrip l = List.rdropWhile isPySpace (List.dropWhile isPySpace l) := rfl

theorem pyStrip_idem (l : List Char) : pyStrip (pyStrip l) = pyStrip l := by
  rw [pyStrip_eq_rdropWhile, pyStrip_eq_rdropWhile]
  have h1 : List.dropWhile isPySpace
      (List.rdropWhile isPySpace (List.dropWhile isPySpace l)) =
      List.rdropWhile isPySpace (List.dropWhile isPySpace l) := by
    rcases hk : List.rdropWhile isPySpace (List.dropWhile isPySpace l) with _ | ⟨c, t⟩
    · rfl
    · have hpre : List.rdropWhile isPySpace (List.dropWhile isPySpace l) <+:
          List.dropWhile isPySpace l := List.rdropWhile_prefix _ _
      rw [hk] at hpre
      obtain ⟨t', ht'⟩ := hpre
      have hm : (List.dropWhile isPySpace l).head? = some c := by
        rw [← ht']
        rfl
      have hnp : isPySpace c = false := by
        have hh := List.head?_dropWhile_not isPySpace l
        rw [hm] at hh
        exact hh
      rw [List.dropWhile_cons, hnp]
      simp
  rw [h1, List.rdropWhile_idempotent]

theorem fetch_unique {parse : Parser} {s s' : List Char} {a : Article}
    (h : a ∈ fetch_articles parse s) (h' : a ∈ fetch_articles parse s') :
    s' = s := by
  have h1 := (fetch_classified h).2
  have h2 := (fetch_classified h').2
  rw [h1] at h2
  exact (Option.some.inj h2).symm

/-- C3: every Article in any bucket of `fetch_articles` carries a
non-blank (idempotently trimmed) title, is classified precisely to the
bucket's Subject (so some keyword of that Subject matches its blob), and
lies in no other bucket; an entry whose trimmed title is blank or whose
blob matches no keyword is therefore never present in any bucket. -/
theorem claim_C3 :
    ∀ (parse : Parser) (s : List Char) (a : Article),
      a ∈ fetch_articles parse s →
        a.title ≠ []
        ∧ pyStrip a.title = a.title
        ∧ classify_subject a.title a.summary = some s
        ∧ (∃ kw ∈ SUBJECT_KEYWORDS s,
            isSubstr (pyLower kw) (blobOf a.title a.summary) = true)
        ∧ (∀ s', a ∈ fetch_articles parse s' → s' = s) := by
  intro parse s a h
  obtain ⟨ht, hcl⟩ := fetch_classified h
  have hidem : pyStrip a.title = a.title := by
    have h' := mem_fetch_collect.mp (mem_fetch_articles h)
    obtain ⟨p, _, es, _, e, _, _, _, ha⟩ := h'
    subst ha
    exact pyStrip_idem e.title
  have hmatch : subjectMatches s (blobOf a.title a.summary) = true := by
    have hcl' : SUBJECT_ORDER.find?
        (fun subject => subjectMatches subject (blobOf a.title a.summary)) =
        some s := hcl
    simpa using List.find?_some hcl'
  obtain ⟨kw, hkw, hsub⟩ := List.any_eq_true.mp hmatch
  exact ⟨ht, hidem, hcl, ⟨kw, hkw, hsub⟩, fun s' h' => fetch_unique h h'⟩

/-- Witness for C3: with a collaborator returning one Economy entry on
the Dawn feed, the resulting article sits in the "Economy" bucket and
satisfies every clause of C3. -/
theorem claim_C3_witness :
    (mkArticle (toCL "Dawn") entryEcon ∈ fetch_articles parseOne (toCL "Economy"))
    ∧ (mkArticle (toCL "Dawn") entryEcon).title ≠ []
    ∧ classify_subject (mkArticle (toCL "Dawn") entryEcon).title
        (mkArticle (toCL "Dawn") entryEcon).summary = some (toCL "Economy") := by
  have hmem : mkArticle (toCL "Dawn") entryEcon ∈
      fetch_articles parseOne (toCL "Economy") := by decide
  have hc := claim_C3 parseOne (toCL "Economy") (mkArticle (toCL "Dawn") entryEcon) hmem
  exact ⟨hmem, hc.1, hc.2.2.1⟩

/-- C4: after `fetch_articles`, every bucket has length at most the
configured cap `MAX_PER_SUBJECT = 6`, and its contents are exactly the
first (earliest-encountered, in source/URL/feed-return accumulation
order) articles of the untruncated accumulation, i.e. the bucket is the
length-6 prefix of `fetch_collect`'s bucket, the rest being discarded
with no re-sorting. -/
theorem claim_C4 :
    ∀ (parse : Parser) (s : List Char),
      (fetch_articles parse s).length ≤ MAX_PER_SUBJECT
      ∧ fetch_articles parse s = (fetch_collect parse s).take MAX_PER_SUBJECT
      ∧ ∃ rest, fetch_collect parse s = fetch_articles parse s ++ rest := by
  intro parse s
  by_cases hm : s ∈ SUBJECT_ORDER
  · have he : fetch_articles parse s =
        (fetch_collect parse s).take MAX_PER_SUBJECT := by
      unfold fetch_articles truncate_buckets
      rw [if_pos hm]
    refine ⟨?_, he, ?_⟩
    · rw [he]
      exact List.length_take_le _ _
    · refine ⟨(fetch_collect parse s).drop MAX_PER_SUBJECT, ?_⟩
      rw [he]
      exact (List.take_append_drop _ _).symm
  · have hempty : fetch_collect parse s = [] := fetch_collect_not_order hm
    have he : fetch_articles parse s = fetch_collect parse s := by
      unfold fetch_articles truncate_buckets
      rw [if_neg hm]
    rw [he, hempty]
    exact ⟨by simp, by simp, [], by simp⟩

theorem process_url_recover (parse : Parser) (source : List Char)
    (cl : Buckets) (url : List Char) :
    process_url (recover parse) source cl url = process_url parse source cl url := by
  unfold process_url recover
  cases parse url with
  | error msg => rfl
  | ok es => rfl

/-- C6: feed failure is handled per-URL and treated as zero entries from
that URL: the buckets computed from any collaborator equal those computed
from the collaborator with every failure replaced by an empty entry
list (so a failure never aborts the run and the remaining URLs are still
processed), and the warning log contains exactly the failing URLs, in
configured processing order. -/
theorem claim_C6 :
    ∀ parse : Parser,
      (∀ s, fetch_articles parse s = fetch_articles (recover parse) s)
      ∧ fetch_warnings parse = (FEEDS.flatMap Prod.snd).filter (parseFails parse) := by
  intro parse
  constructor
  · intro s
    unfold fetch_articles truncate_buckets
    have hcol : fetch_collect (recover parse) = fetch_collect parse := by
      simp only [fetch_collect_eq, process_url_recover]
    rw [hcol]
  · rcases h1 : parse (toCL "https://www.dawn.com/feeds/home") with e1 | o1 <;>
      rcases h2 : parse (toCL "https://tribune.com.pk/feed/latest") with e2 | o2 <;>
      rcases h3 : parse (toCL "https://tribune.com.pk/feed/opinion") with e3 | o3 <;>
      simp [fetch_warnings, FEEDS, parseFails, h1, h2, h3]

theorem process_url_fail {parse : Parser} {source url : List Char} {cl : Buckets}
    (h : parseFails parse url = true) :
    process_url parse source cl url = cl := by
  unfold process_url
  unfold parseFails at h
  cases hp : parse url with
  | error msg => rfl
  | ok es =>
    rw [hp] at h
    cases h

/-- C7: with zero reachable feed URLs (every URL fails), every Subject's
bucket is empty, and rendering the result is the bare document skeleton
(head, timestamp line, tail) with zero content sections: the
section-opening markup occurs nowhere in the fixed skeleton parts. -/
theorem claim_C7 :
    ∀ parse : Parser, (∀ url, parseFails parse url = true) →
      (∀ s, fetch_articles parse s = [])
      ∧ (∀ date_str, build_html (fetch_articles parse) date_str =
          HTML_HEAD ++ dateLinePart date_str ++ HTML_FOOT)
      ∧ isSubstr SECTION_OPEN HTML_HEAD = false
      ∧ isSubstr SECTION_OPEN HTML_FOOT = false := by
  intro parse hfail
  have hempty : ∀ s, fetch_articles parse s = [] := by
    intro s
    have hcol : fetch_collect parse s = [] := by
      rw [fetch_collect_eq]
      rw [process_url_fail (hfail _), process_url_fail (hfail _),
        process_url_fail (hfail _)]
      rfl
    unfold fetch_articles truncate_buckets
    by_cases hm : s ∈ SUBJECT_ORDER
    · rw [if_pos hm, hcol]
      rfl
    · rw [if_neg hm, hcol]
  refine ⟨hempty, ?_, by decide, by decide⟩
  intro date_str
  unfold build_html
  have hsec : ∀ s ∈ SUBJECT_ORDER, sectionParts (fetch_articles parse) s = [] := by
    intro s _
    unfold sectionParts
    rw [hempty s]
    rfl
  rw [List.flatMap_eq_nil_iff.mpr hsec]
  simp

/-- Witness for C7 with the concrete all-failing collaborator and a
concrete timestamp. -/
theorem claim_C7_witness :
    fetch_articles parseFailAll (toCL "Economy") = []
    ∧ build_html (fetch_articles parseFailAll) (toCL "12 October 2025") =
        HTML_HEAD ++ dateLinePart (toCL "12 October 2025") ++ HTML_FOOT :=
  ⟨(claim_C7 parseFailAll (fun _ => rfl)).1 (toCL "Economy"),
   (claim_C7 parseFailAll (fun _ => rfl)).2.1 (toCL "12 October 2025")⟩

theorem cardParts_flatten (item : Article) :
    (cardParts item).flatten = renderCard item := by
  by_cases hs : item.summary = [] <;>
    simp [cardParts, renderCard, hs]

theorem flatMap_cardParts_flatten :
    ∀ items : List Article,
      (items.flatMap cardParts).flatten = (items.map renderCard).flatten := by
  intro items
  induction items with
  | nil => rfl
  | cons i t ih =>
    rw [List.flatMap_cons, List.flatten_append, ih, List.map_cons,
      List.flatten_cons, cardParts_flatten]

theorem sectionParts_flatten {cl : Buckets} {subject : List Char}
    (h : cl subject ≠ []) :
    (sectionParts cl subject).flatten = renderSection subject (cl subject) := by
  unfold sectionParts renderSection
  rw [if_neg h]
  simp only [List.append_assoc, List.flatten_append, List.flatten_cons,
    List.flatten_nil, flatMap_cardParts_flatten]
  simp

theorem flatMap_sections_flatten (cl : Buckets) :
    ∀ l : List (List Char),
      (l.flatMap (sectionParts cl)).flatten =
        ((l.filter (fun s => !(cl s).isEmpty)).map
          (fun s => renderSection s (cl s))).flatten := by
  intro l
  induction l with
  | nil => rfl
  | cons s t ih =>
    rw [List.flatMap_cons, List.flatten_append, ih]
    by_cases h : cl s = []
    · have h1 : sectionParts cl s = [] := by
        unfold sectionParts
        rw [if_pos h]
      have h2 : (!(cl s).isEmpty) = false := by
        simp [h]
      rw [h1, List.filter_cons_of_neg (by simp [h2])]
      rfl
    · have h2 : (!(cl s).isEmpty) = true := by
        simp [List.isEmpty_iff, h]
      rw [List.filter_cons_of_pos (by simp [h2]), List.map_cons,
        List.flatten_cons, sectionParts_flatten h]

theorem build_html_eq_spec (cl : Buckets) (date_str : List Char) :
    build_html cl date_str = build_html_spec cl date_str := by
  unfold build_html build_html_spec
  simp only [List.flatten_append, List.flatten_cons, List.flatten_nil]
  rw [flatMap_sections_flatten]
  simp [List.append_assoc]

/-- C8: the static renderer is exactly the spec-side renderer: a fixed
head, the timestamp line, one section per non-empty Subject in declared
Subject order — each a card per Article with title, source label,
summary only when non-empty, and link — with empty Subjects omitted
entirely, then a fixed tail; being a pure function of the classified
buckets and the timestamp, the output is deterministic given identical
inputs. -/
theorem claim_C8 :
    ∀ (cl : Buckets) (date_str : List Char),
      build_html cl date_str = build_html_spec cl date_str :=
  build_html_eq_spec

theorem occurs_append_left {pat l : List Char} (m : List Char)
    (h : Occurs pat l) : Occurs pat (m ++ l) := by
  obtain ⟨a, b, rfl⟩ := h
  exact ⟨m ++ a, b, by simp [List.append_assoc]⟩

theorem occurs_append_right {pat l : List Char} (m : List Char)
    (h : Occurs pat l) : Occurs pat (l ++ m) := by
  obtain ⟨a, b, rfl⟩ := h
  exact ⟨a, b ++ m, by simp [List.append_assoc]⟩

theorem occurs_flatten_of_mem {pat x : List Char} {L : List (List Char)}
    (hx : x ∈ L) (h : Occurs pat x) : Occurs pat L.flatten := by
  induction L with
  | nil => exact absurd hx (List.not_mem_nil x)
  | cons y t ih =>
    rw [List.flatten_cons]
    rcases List.mem_cons.mp hx with hx | hx
    · subst hx
      exact occurs_append_right _ h
    · exact occurs_append_left _ (ih hx)

theorem occurs_title_renderCard (item : Article) :
    Occurs item.title (renderCard item) := by
  unfold renderCard
  apply occurs_append_right
  apply occurs_append_right
  apply occurs_append_right
  apply occurs_append_right
  apply occurs_append_left
  exact ⟨toCL "        <h3>", toCL "</h3>\n", rfl⟩

theorem occurs_source_renderCard (item : Article) :
    Occurs item.source (renderCard item) := by
  unfold renderCard
  apply occurs_append_right
  apply occurs_append_right
  apply occurs_append_right
  apply occurs_append_left
  exact ⟨toCL "        <p class=\"meta\">", toCL "</p>\n", rfl⟩

theorem occurs_link_renderCard (item : Article) :
    Occurs item.link (renderCard item) := by
  unfold renderCard
  apply occurs_append_right
  apply occurs_append_left
  exact ⟨toCL "        <a href=\"",
    toCL "\" target=\"_blank\" rel=\"noopener noreferrer\">Read full piece</a>\n", rfl⟩

theorem occurs_summary_renderCard {item : Article} (hs : item.summary ≠ []) :
    Occurs item.summary (renderCard item) := by
  unfold renderCard
  apply occurs_append_right
  apply occurs_append_right
  apply occurs_append_left
  rw [if_neg hs]
  exact ⟨toCL "        <p class=\"summary\">", toCL "</p>\n", rfl⟩

theorem occurs_card_build_html {cl : Buckets} {subject : List Char}
    {item : Article} {pat : List Char} (hsub : subject ∈ SUBJECT_ORDER)
    (hitem : item ∈ cl subject) (date_str : List Char)
    (h : Occurs pat (renderCard item)) :
    Occurs pat (build_html cl date_str) := by
  rw [build_html_eq_spec]
  unfold build_html_spec
  apply occurs_append_right
  apply occurs_append_left
  have hne : cl subject ≠ [] := List.ne_nil_of_mem hitem
  have hfil : subject ∈ SUBJECT_ORDER.filter (fun s => !(cl s).isEmpty) :=
    List.mem_filter.mpr ⟨hsub, by simp [List.isEmpty_iff, hne]⟩
  have hmemsec : renderSection subject (cl subject) ∈
      (SUBJECT_ORDER.filter (fun s => !(cl s).isEmpty)).map
        (fun s => renderSection s (cl s)) :=
    List.mem_map_of_mem _ hfil
  apply occurs_flatten_of_mem hmemsec
  unfold renderSection
  apply occurs_append_right
  apply occurs_append_left
  exact occurs_flatten_of_mem (List.mem_map_of_mem _ hitem) h

/-- C10: `build_html` performs no HTML escaping: every rendered
Article's title, source, link — and summary, when non-empty — appear
verbatim as contiguous substrings of the output document; and every
Article a fetch run buckets comes from some feed entry via `mkArticle`,
whose stored title and link are only whitespace-trimmed while only the
summary passes through the `strip_html` normalizer — so markup in an
entry's title flows unmodified into the rendered HTML. -/
theorem claim_C10 :
    (∀ (cl : Buckets) (date_str subject : List Char) (item : Article),
      subject ∈ SUBJECT_ORDER → item ∈ cl subject →
        Occurs item.title (build_html cl date_str)
        ∧ Occurs item.source (build_html cl date_str)
        ∧ Occurs item.link (build_html cl date_str)
        ∧ (item.summary ≠ [] → Occurs item.summary (build_html cl date_str)))
    ∧ (∀ (parse : Parser) (s : List Char) (a : Article),
        a ∈ fetch_articles parse s →
          ∃ p ∈ feedPairs, ∃ es, parse p.2 = .ok es ∧ ∃ e ∈ es,
            a = mkArticle p.1 e
            ∧ a.title = pyStrip e.title
            ∧ a.summary = strip_html e.summary
            ∧ a.link = pyStrip e.link) := by
  constructor
  · intro cl date_str subject item hsub hitem
    exact ⟨occurs_card_build_html hsub hitem date_str (occurs_title_renderCard item),
      occurs_card_build_html hsub hitem date_str (occurs_source_renderCard item),
      occurs_card_build_html hsub hitem date_str (occurs_link_renderCard item),
      fun hs => occurs_card_build_html hsub hitem date_str
        (occurs_summary_renderCard hs)⟩
  · intro parse s a h
    obtain ⟨p, hp, es, hes, e, he, _, _, ha⟩ :=
      mem_fetch_collect.mp (mem_fetch_articles h)
    subst ha
    exact ⟨p, hp, es, hes, e, he, rfl, rfl, rfl, rfl⟩

/-- Witness for C10: the concrete Economy article's title appears
verbatim in the rendered document, and its provenance from the Dawn feed
entry is exhibited. -/
theorem claim_C10_witness :
    Occurs (mkArticle (toCL "Dawn") entryEcon).title
      (build_html (fetch_articles parseOne) (toCL "12 October 2025"))
    ∧ ∃ p ∈ feedPairs, ∃ es, parseOne p.2 = .ok es ∧ ∃ e ∈ es,
        mkArticle (toCL "Dawn") entryEcon = mkArticle p.1 e
        ∧ (mkArticle (toCL "Dawn") entryEcon).title = pyStrip e.title
        ∧ (mkArticle (toCL "Dawn") entryEcon).summary = strip_html e.summary
        ∧ (mkArticle (toCL "Dawn") entryEcon).link = pyStrip e.link := by
  have hmem : mkArticle (toCL "Dawn") entryEcon ∈
      fetch_articles parseOne (toCL "Economy") := by decide
  exact ⟨(claim_C10.1 (fetch_articles parseOne) (toCL "12 October 2025")
      (toCL "Economy") (mkArticle (toCL "Dawn") entryEcon) (by decide) hmem).1,
    claim_C10.2 parseOne (toCL "Economy") (mkArticle (toCL "Dawn") entryEcon) hmem⟩
